import Mathlib

/-!
Verification of the input-source data-lifecycle framework and the display
render arbiter of the `glasses` repository.

Shallow embedding conventions:
* Python `datetime` values are embedded as `Int` timestamps; comparison of
  datetimes is integer comparison.
* `InputData.content` is embedded as `String` (it is opaque to all the code
  verified here).
* `BaseInput.current_data` is a Python list, embedded as `List InputData`.
* Python `max(xs, key=f)` returns the first element attaining the maximal
  key; `pyMaxBy` reproduces this left fold exactly.
-/

namespace Glasses

/-- Embedding of `InputData.__init__` fields (src/inputs/base_input.py). -/
structure InputData where
  source : String
  data_type : String
  content : String
  timestamp : Int
  priority : Int
  expires_at : Option Int
deriving DecidableEq, Repr

/-- Embedding of `InputData.is_expired`: `False` when `expires_at` is `None`,
otherwise `datetime.now() > expires_at`, with the current time passed
explicitly. -/
def is_expired (d : InputData) (now : Int) : Bool :=
  match d.expires_at with
  | none => false
  | some t => now > t

/-- Embedding of `BaseInput._clean_expired_data`: keep the records that are
not expired at the current time. -/
def clean_expired_data (now : Int) (cur : List InputData) : List InputData :=
  cur.filter (fun d => !(is_expired d now))

/-- Embedding of `BaseInput.add_data`: drop every resident record with the
same `(source, data_type)` pair, then append the new record. -/
def add_data (cur : List InputData) (d : InputData) : List InputData :=
  (cur.filter (fun r => !(r.source == d.source && r.data_type == d.data_type))) ++ [d]

/-- Embedding of `BaseInput.get_current_data`: with a truthy `data_type`
argument, filter by `data_type`; with `None` (or the falsy empty string)
return the whole collection.  No expiry check appears in the source. -/
def get_current_data (cur : List InputData) (dt : Option String) : List InputData :=
  match dt with
  | some t => if t == "" then cur else cur.filter (fun d => d.data_type == t)
  | none => cur

/-- Python `max(xs, key=key)`: a left fold that replaces the running best
only on a strictly greater key, hence the first maximal element wins. -/
def pyMaxBy {α : Type} (key : α → Int) : List α → Option α
  | [] => none
  | x :: xs => some (xs.foldl (fun best y => if key y > key best then y else best) x)

/-- Embedding of `BaseInput.get_latest_data`: `max` by `timestamp` over
`get_current_data(data_type)`, `None` on an empty filter result. -/
def get_latest_data (cur : List InputData) (dt : String) : Option InputData :=
  pyMaxBy (fun x => x.timestamp) (get_current_data cur (some dt))

/-- Record count for one `(source, data_type)` key. -/
def countKey (cur : List InputData) (s t : String) : Nat :=
  (cur.filter (fun d => d.source == s && d.data_type == t)).length

/-- `r` occurs in `l` at a position strictly before every other element of
maximal key, and its key is maximal: the "first maximal element" of `l`. -/
def IsFirstMaxBy {α : Type} (key : α → Int) (l : List α) (r : α) : Prop :=
  ∃ l1 l2, l = l1 ++ r :: l2 ∧ (∀ y ∈ l1, key y < key r) ∧ (∀ y ∈ l2, key y ≤ key r)

theorem IsFirstMaxBy.mem {α : Type} {key : α → Int} {l : List α} {r : α}
    (h : IsFirstMaxBy key l r) : r ∈ l := by
  obtain ⟨l1, l2, hsplit, -, -⟩ := h
  subst hsplit
  exact List.mem_append.mpr (Or.inr (List.mem_cons_self r l2))

theorem IsFirstMaxBy.le_of_mem {α : Type} {key : α → Int} {l : List α} {r : α}
    (h : IsFirstMaxBy key l r) : ∀ z ∈ l, key z ≤ key r := by
  obtain ⟨l1, l2, hsplit, hlt, hle⟩ := h
  subst hsplit
  intro z hz
  rcases List.mem_append.mp hz with hz | hz
  · exact le_of_lt (hlt z hz)
  · rcases List.mem_cons.mp hz with hz | hz
    · subst hz; exact le_refl _
    · exact hle z hz

theorem foldl_best_firstMax {α : Type} (key : α → Int) :
    ∀ (ys : List α) (x : α),
      IsFirstMaxBy key (x :: ys)
        (ys.foldl (fun best y => if key y > key best then y else best) x) := by
  intro ys
  induction ys with
  | nil =>
    intro x
    exact ⟨[], [], rfl, by simp, by simp⟩
  | cons y ys ih =>
    intro x
    simp only [List.foldl_cons]
    by_cases h : key y > key x
    · simp only [if_pos h]
      obtain ⟨l1, l2, hsplit, hlt, hle⟩ := ih y
      have hy_le : key y ≤
          key (ys.foldl (fun best z => if key z > key best then z else best) y) :=
        (ih y).le_of_mem y (List.mem_cons_self y ys)
      refine ⟨x :: l1, l2, ?_, ?_, hle⟩
      · rw [List.cons_append, ← hsplit]
      · intro z hz
        rcases List.mem_cons.mp hz with hz | hz
        · subst hz; exact lt_of_lt_of_le h hy_le
        · exact hlt z hz
    · simp only [if_neg h]
      push_neg at h
      obtain ⟨l1, l2, hsplit, hlt, hle⟩ := ih x
      cases l1 with
      | nil =>
        simp only [List.nil_append] at hsplit
        obtain ⟨hx, hys⟩ := List.cons.inj hsplit
        refine ⟨[], y :: ys, ?_, by simp, ?_⟩
        · rw [List.nil_append, ← hx]
        · intro z hz
          rcases List.mem_cons.mp hz with hz | hz
          · subst hz; rw [← hx]; exact h
          · rw [hys] at hz; exact hle z hz
      | cons a l1' =>
        rw [List.cons_append] at hsplit
        obtain ⟨hx, hys⟩ := List.cons.inj hsplit
        have hxlt : key x <
            key (ys.foldl (fun best z => if key z > key best then z else best) x) := by
          apply hlt
          rw [← hx]; exact List.mem_cons_self x l1'
        refine ⟨x :: y :: l1', l2, ?_, ?_, hle⟩
        · rw [List.cons_append, List.cons_append, ← hys]
        · intro z hz
          rcases List.mem_cons.mp hz with hz | hz
          · subst hz; exact hxlt
          · rcases List.mem_cons.mp hz with hz | hz
            · subst hz; exact lt_of_le_of_lt h hxlt
            · exact hlt z (List.mem_cons_of_mem a hz)

theorem pyMaxBy_spec {α : Type} {key : α → Int} {l : List α} {r : α}
    (h : pyMaxBy key l = some r) : IsFirstMaxBy key l r := by
  cases l with
  | nil => simp [pyMaxBy] at h
  | cons x xs =>
    simp only [pyMaxBy, Option.some.injEq] at h
    rw [← h]
    exact foldl_best_firstMax key xs x

theorem pyMaxBy_eq_none_iff {α : Type} (key : α → Int) (l : List α) :
    pyMaxBy key l = none ↔ l = [] := by
  cases l <;> simp [pyMaxBy]

theorem countKey_add_data_self (cur : List InputData) (d : InputData) :
    countKey (add_data cur d) d.source d.data_type = 1 := by
  unfold countKey add_data
  rw [List.filter_append, List.filter_filter]
  have h1 : cur.filter
      (fun a => (a.source == d.source && a.data_type == d.data_type) &&
        !(a.source == d.source && a.data_type == d.data_type)) = [] := by
    apply List.filter_eq_nil_iff.mpr
    intro a _
    simp
  rw [h1]
  simp

theorem countKey_add_data_ne (cur : List InputData) (d : InputData) (s t : String)
    (h : ¬(s = d.source ∧ t = d.data_type)) :
    countKey (add_data cur d) s t = countKey cur s t := by
  unfold countKey add_data
  rw [List.filter_append, List.filter_filter]
  have hd : ((d.source == s) && (d.data_type == t)) = false := by
    by_contra hb
    rw [Bool.not_eq_false, Bool.and_eq_true, beq_iff_eq, beq_iff_eq] at hb
    exact h ⟨hb.1.symm, hb.2.symm⟩
  have h2 : List.filter (fun r => r.source == s && r.data_type == t) [d] = [] := by
    simp [List.filter, hd]
  rw [h2, List.append_nil]
  congr 1
  apply List.filter_congr
  intro a _
  by_cases ha : ((a.source == s) && (a.data_type == t)) = true
  · rw [Bool.and_eq_true, beq_iff_eq, beq_iff_eq] at ha
    simp only [ha.1, ha.2]
    simp
    exact not_and_or.mp h
  · rw [Bool.not_eq_true] at ha
    simp [ha]

theorem countKey_foldl_le_one (ds : List InputData) :
    ∀ (acc : List InputData), (∀ s t, countKey acc s t ≤ 1) →
      ∀ s t, countKey (ds.foldl add_data acc) s t ≤ 1 := by
  induction ds with
  | nil => intro acc h s t; exact h s t
  | cons d ds ih =>
    intro acc h s t
    apply ih
    intro s' t'
    by_cases hk : s' = d.source ∧ t' = d.data_type
    · rw [hk.1, hk.2, countKey_add_data_self]
    · rw [countKey_add_data_ne _ _ _ _ hk]; exact h s' t'

/-! ### Lifecycle state of a `BaseInput` (`start` / `stop`) -/

/-- Module-lifecycle state relevant to `BaseInput.start` and `BaseInput.stop`:
the `enabled` and `running` flags plus counters recording how many update
loops `asyncio.create_task` has launched and how many times the `_cleanup`
hook has run. -/
structure ModuleState where
  enabled : Bool
  running : Bool
  loopsLaunched : Nat
  cleanupRuns : Nat
deriving DecidableEq, Repr

/-- Embedding of `BaseInput.start`: return immediately when disabled;
otherwise set `running` and launch an update loop — the source has no
already-running guard, so every enabled call launches a fresh loop task. -/
def start (s : ModuleState) : ModuleState :=
  if s.enabled = false then s
  else { s with running := true, loopsLaunched := s.loopsLaunched + 1 }

/-- Embedding of `BaseInput.stop`: unconditionally set `running := false`
and run the `_cleanup` hook. -/
def stop (s : ModuleState) : ModuleState :=
  { s with running := false, cleanupRuns := s.cleanupRuns + 1 }

/-! ### The update loop's error accounting (`BaseInput._update_loop`) -/

/-- Loop state relevant to the fail-stop policy. -/
structure LoopState where
  running : Bool
  error_count : Nat
deriving DecidableEq, Repr

/-- Outcome of one fetch attempt inside the loop's `try` block. -/
inductive FetchOutcome
  | success
  | failure
deriving DecidableEq, Repr

/-- One iteration of `BaseInput._update_loop`, abstracted over the fetch
outcome: a successful update resets `error_count` to 0; an exception
increments it and, once it reaches `max_errors`, sets `running := false`
and breaks out of the loop.  A loop that is no longer running takes no
further steps. -/
def update_step (max_errors : Nat) (s : LoopState) (o : FetchOutcome) : LoopState :=
  if s.running = false then s
  else
    match o with
    | .success => { s with error_count := 0 }
    | .failure =>
      let ec := s.error_count + 1
      if max_errors ≤ ec then { running := false, error_count := ec }
      else { s with error_count := ec }

/-- The loop run over a sequence of fetch outcomes. -/
def run_loop (max_errors : Nat) (s : LoopState) (os : List FetchOutcome) : LoopState :=
  os.foldl (update_step max_errors) s

/-- The state `_update_loop` starts from after `start()`: running, with a
zero error counter. -/
def initial_loop_state : LoopState :=
  { running := true, error_count := 0 }

/-! ### Listener fan-out (`BaseInput._notify_listeners`) -/

/-- Result of invoking one listener callback: normal return, or an
exception carrying a message. -/
inductive CbResult
  | ok
  | raised (msg : String)
deriving DecidableEq, Repr

/-- A registered listener: an identifier (its registration position) plus
the outcome its callback produces on the record being delivered. -/
structure Listener where
  id : Nat
  outcome : CbResult
deriving DecidableEq, Repr

/-- Embedding of the `for callback in self.data_listeners` loop of
`BaseInput._notify_listeners`: each callback is invoked inside its own
`try`/`except`; a raised exception is logged and the loop continues with
the next callback.  Returns the ids invoked (in order) and the log of
caught exceptions; the function is total — no exception escapes to the
caller. -/
def notify_listeners : List Listener → List Nat × List (Nat × String)
  | [] => ([], [])
  | cb :: rest =>
    let r := notify_listeners rest
    match cb.outcome with
    | .ok => (cb.id :: r.1, r.2)
    | .raised e => (cb.id :: r.1, (cb.id, e) :: r.2)

/-! ### DisplayController: `show_text` and the deferred auto-clear

`show_text(text, duration)` cancels the pending `current_task` (when it has
not completed) and, with a duration, launches `_show_text_with_duration`
as a new task: render, `asyncio.sleep(duration)`, `clear()`.  Cancelling a
task sleeping in `asyncio.sleep` raises `CancelledError` there, so its
trailing `clear()` never runs.  The embedding keeps every task ever
created in a list indexed by creation order; `fire_timer tid` models the
sleep of task `tid` elapsing: if the task was cancelled (or already ran)
nothing happens, otherwise the display is cleared.  The render inside the
timed task is modelled as happening at arming time; this only affects what
is shown before the next call, not the preemption behaviour. -/

/-- A `_show_text_with_duration` task: whether it was cancelled while
pending, and whether its auto-clear already ran. -/
structure ClearTask where
  cancelled : Bool
  fired : Bool
deriving DecidableEq, Repr

/-- Display state: the content currently painted (`none` = cleared), all
auto-clear tasks ever created, and `current_task` (an index into `tasks`). -/
structure DisplayState where
  displayed : Option String
  tasks : List ClearTask
  current_task : Option Nat
deriving DecidableEq, Repr

/-- Embedding of `if self.current_task and not self.current_task.done():
self.current_task.cancel()` at the top of `show_text`. -/
def cancel_current (s : DisplayState) : DisplayState :=
  match s.current_task with
  | none => s
  | some tid =>
    match s.tasks.get? tid with
    | none => s
    | some t =>
      if t.fired then s
      else { s with tasks := s.tasks.set tid { t with cancelled := true } }

/-- Embedding of `DisplayController.show_text`: cancel the pending task;
with a duration, create a fresh `_show_text_with_duration` task (render
plus armed auto-clear) and make it `current_task`; without one, render
directly. -/
def show_text (s : DisplayState) (text : String) (duration : Option Int) : DisplayState :=
  let s1 := cancel_current s
  match duration with
  | some _ =>
    { displayed := some text
      tasks := s1.tasks ++ [{ cancelled := false, fired := false }]
      current_task := some s1.tasks.length }
  | none => { s1 with displayed := some text }

/-- The sleep of auto-clear task `tid` elapses: a cancelled task stops at
the sleep (its `clear()` never runs); otherwise the display is cleared and
the task completes. -/
def fire_timer (s : DisplayState) (tid : Nat) : DisplayState :=
  match s.tasks.get? tid with
  | none => s
  | some t =>
    if t.cancelled || t.fired then s
    else { s with displayed := none,
                  tasks := s.tasks.set tid { t with fired := true } }

/-! ### DisplayController: text layout (`_draw_text`) -/

/-- Python `text.split('\n')` on a string viewed as its character
sequence: always at least one (possibly empty) piece; a separator at the
end yields a trailing empty piece. -/
def split_lines : List Char → List (List Char)
  | [] => [[]]
  | c :: rest =>
    if c = '\n' then [] :: split_lines rest
    else
      match split_lines rest with
      | [] => [[c]]
      | l :: ls => (c :: l) :: ls

/-- One `draw.text((x, y), line, ...)` call issued by `_draw_text`. -/
structure DrawOp where
  x : Int
  y : Int
  line : List Char
deriving DecidableEq, Repr

/-- `DisplayController.__init__` sets `self.width = 128`. -/
def display_width : Int := 128

/-- `DisplayController.__init__` sets `self.height = 64`. -/
def display_height : Int := 64

/-- `_draw_text` uses the fixed approximate line height 15. -/
def line_height : Int := 15

/-- The centered branch's `for i, line in enumerate(lines)` loop: line `i`
is drawn at `((width − measured width of the line) // 2, start_y + i*15)`.
Python `//` is floor division, embedded as `Int.fdiv`. -/
def draw_lines_centered (measure : List Char → Int) (start_y : Int) :
    Nat → List (List Char) → List DrawOp
  | _, [] => []
  | i, line :: rest =>
    { x := Int.fdiv (display_width - measure line) 2
      y := start_y + (i : Int) * line_height
      line := line } :: draw_lines_centered measure start_y (i + 1) rest

/-- The positioned branch's loop: line `i` is drawn at `(x, y + i*15)`. -/
def draw_lines_at (x y : Int) : Nat → List (List Char) → List DrawOp
  | _, [] => []
  | i, line :: rest =>
    { x := x, y := y + (i : Int) * line_height, line := line }
      :: draw_lines_at x y (i + 1) rest

/-- Embedding of `DisplayController._draw_text`: split the text on newline;
if centering is requested and no position given, compute the vertical
start offset `(height − lineCount*15) // 2` and center each line by its
own measured width; otherwise left-anchor at the given position (or the
top-left corner) and stack lines downward. -/
def draw_text (measure : List Char → Int) (text : List Char)
    (position : Option (Int × Int)) (center : Bool) : List DrawOp :=
  let lines := split_lines text
  if center && position.isNone then
    let total_height := (lines.length : Int) * line_height
    let start_y := Int.fdiv (display_height - total_height) 2
    draw_lines_centered measure start_y 0 lines
  else
    let xy := position.getD (0, 0)
    draw_lines_at xy.1 xy.2 0 lines

/-! ### Supporting lemmas -/

theorem get?_concat_length {α : Type} (l : List α) (a : α) :
    (l ++ [a]).get? l.length = some a := by
  induction l with
  | nil => rfl
  | cons x xs ih => simp [ih]

theorem set_concat_length {α : Type} (l : List α) (a v : α) :
    (l ++ [a]).set l.length v = l ++ [v] := by
  induction l with
  | nil => rfl
  | cons x xs ih => simp [ih]

theorem mem_of_mem_get_current_data {cur : List InputData} {dt : Option String}
    {r : InputData} (h : r ∈ get_current_data cur dt) : r ∈ cur := by
  match dt with
  | none => exact h
  | some t =>
    simp only [get_current_data] at h
    by_cases he : (t == "") = true
    · rw [if_pos he] at h; exact h
    · rw [if_neg he] at h; exact (List.mem_filter.mp h).1

theorem data_type_of_mem_get_current_data {cur : List InputData} {t : String}
    {r : InputData} (hne : t ≠ "") (h : r ∈ get_current_data cur (some t)) :
    r.data_type = t := by
  simp only [get_current_data] at h
  rw [if_neg (by simpa using hne)] at h
  exact beq_iff_eq.mp (List.mem_filter.mp h).2

theorem mem_get_current_data_of_kind {cur : List InputData} {t : String}
    {r : InputData} (hr : r ∈ cur) (ht : r.data_type = t) (hne : t ≠ "") :
    r ∈ get_current_data cur (some t) := by
  simp only [get_current_data]
  rw [if_neg (by simpa using hne)]
  exact List.mem_filter.mpr ⟨hr, by simpa using ht⟩

theorem run_loop_failures (max_errors : Nat) :
    ∀ (n ec : Nat), ec + n = max_errors → 0 < n →
      run_loop max_errors { running := true, error_count := ec }
          (List.replicate n .failure)
        = { running := false, error_count := max_errors } := by
  intro n
  induction n with
  | zero => intro ec h h0; omega
  | succ n ih =>
    intro ec h h0
    rw [List.replicate_succ]
    by_cases hn : n = 0
    · subst hn
      have hec : ec + 1 = max_errors := by omega
      simp [run_loop, update_step, hec]
    · have hlt : ¬ (max_errors ≤ ec + 1) := by omega
      have hstep : update_step max_errors { running := true, error_count := ec } .failure
          = { running := true, error_count := ec + 1 } := by
        simp [update_step, hlt]
      show run_loop max_errors _ (.failure :: List.replicate n .failure) = _
      unfold run_loop
      rw [List.foldl_cons]
      show run_loop max_errors
          (update_step max_errors { running := true, error_count := ec } .failure)
          (List.replicate n .failure) = _
      rw [hstep]
      exact ih (ec + 1) (by omega) (by omega)

theorem draw_lines_centered_get? (measure : List Char → Int) (start_y : Int) :
    ∀ (lines : List (List Char)) (i0 j : Nat),
      (draw_lines_centered measure start_y i0 lines).get? j =
        (lines.get? j).map fun line =>
          { x := Int.fdiv (display_width - measure line) 2
            y := start_y + ((i0 + j : Nat) : Int) * line_height
            line := line } := by
  intro lines
  induction lines with
  | nil => intro i0 j; simp [draw_lines_centered]
  | cons l rest ih =>
    intro i0 j
    cases j with
    | zero => simp [draw_lines_centered]
    | succ j' =>
      simp only [draw_lines_centered, List.get?_cons_succ]
      rw [ih (i0 + 1) j']
      have harith : i0 + 1 + j' = i0 + (j' + 1) := by omega
      rw [harith]

theorem draw_lines_at_get? (x y : Int) :
    ∀ (lines : List (List Char)) (i0 j : Nat),
      (draw_lines_at x y i0 lines).get? j =
        (lines.get? j).map fun line =>
          { x := x, y := y + ((i0 + j : Nat) : Int) * line_height, line := line } := by
  intro lines
  induction lines with
  | nil => intro i0 j; simp [draw_lines_at]
  | cons l rest ih =>
    intro i0 j
    cases j with
    | zero => simp [draw_lines_at]
    | succ j' =>
      simp only [draw_lines_at, List.get?_cons_succ]
      rw [ih (i0 + 1) j']
      have harith : i0 + 1 + j' = i0 + (j' + 1) := by omega
      rw [harith]

theorem expired_not_read_after_prune {now : Int} {cur : List InputData}
    {dt : Option String} {r : InputData} (hexp : is_expired r now = true) :
    r ∉ get_current_data (clean_expired_data now cur) dt := by
  intro hmem
  have h1 : r ∈ clean_expired_data now cur := mem_of_mem_get_current_data hmem
  have h2 := (List.mem_filter.mp h1).2
  rw [hexp] at h2
  simp at h2

/-! ### Concrete records used in counterexamples and witnesses -/

/-- A record whose `expires_at` (time 0) is already past at time 5. -/
def rExpired : InputData :=
  { source := "s1", data_type := "k", content := "c", timestamp := 1,
    priority := 5, expires_at := some 0 }

/-- A record whose `expires_at` (time 1) is already past at time 4. -/
def rExpired2 : InputData :=
  { source := "src", data_type := "kind2", content := "x", timestamp := 3,
    priority := 5, expires_at := some 1 }

/-- A never-expiring record from source `"a"`. -/
def rPlain : InputData :=
  { source := "a", data_type := "k", content := "c1", timestamp := 10,
    priority := 5, expires_at := none }

/-- A never-expiring record from source `"b"` with the same kind and the
same timestamp as `rPlain`. -/
def rPlain2 : InputData :=
  { source := "b", data_type := "k", content := "c2", timestamp := 10,
    priority := 5, expires_at := none }

/-! ### Claim C1 -/

/-- Claim C1 is false of the code: `get_current_data` and `get_latest_data`
apply no expiry check, so a record expired at read time (here at time 5)
is still returned by both lookups while physically present. -/
theorem C1_counterexample :
    is_expired rExpired 5 = true ∧
    rExpired ∈ get_current_data [rExpired] none ∧
    rExpired ∈ get_current_data [rExpired] (some "k") ∧
    get_latest_data [rExpired] "k" = some rExpired := by decide

/-- Claim C1 amended: the read operations apply no expiry check — they
return exactly the physically resident records (filtered by kind only) —
and an expired record stops being returned only once a pruning pass
(`_clean_expired_data`) has removed it. -/
theorem C1_amended_no_read_expiry :
    (∀ cur : List InputData, get_current_data cur none = cur) ∧
    (∀ (cur : List InputData) (t : String) (r : InputData),
        r ∈ cur → r.data_type = t → t ≠ "" → r ∈ get_current_data cur (some t)) ∧
    (∀ (now : Int) (cur : List InputData) (dt : Option String) (r : InputData),
        is_expired r now = true →
        r ∉ get_current_data (clean_expired_data now cur) dt) ∧
    (∀ (now : Int) (cur : List InputData) (k : String) (r : InputData),
        is_expired r now = true →
        get_latest_data (clean_expired_data now cur) k ≠ some r) := by
  refine ⟨fun cur => rfl, ?_, ?_, ?_⟩
  · intro cur t r hr ht hne
    exact mem_get_current_data_of_kind hr ht hne
  · intro now cur dt r hexp
    exact expired_not_read_after_prune hexp
  · intro now cur k r hexp hlatest
    exact expired_not_read_after_prune hexp (pyMaxBy_spec hlatest).mem

/-- Witness for `C1_amended_no_read_expiry` at concrete inputs. -/
theorem C1_amended_witness :
    rExpired ∈ get_current_data [rExpired] (some "k") ∧
    rExpired ∉ get_current_data (clean_expired_data 5 [rExpired]) (some "k") :=
  ⟨C1_amended_no_read_expiry.2.1 [rExpired] "k" rExpired (by decide) (by decide)
      (by decide),
   C1_amended_no_read_expiry.2.2.1 5 [rExpired] (some "k") rExpired (by decide)⟩

/-! ### Claim C2 -/

/-- Claim C2 is false of the code: after the `add_data` sequence
`[rExpired2]`, `get_latest_data "kind2"` returns `rExpired2` at a time
(4) at which it is expired, so it does not return "the most recently
added non-expired record" — no non-expired record of that kind exists. -/
theorem C2_counterexample :
    get_latest_data (List.foldl add_data [] [rExpired2]) "kind2" = some rExpired2 ∧
    is_expired rExpired2 4 = true := by decide

/-- Claim C2 amended: after every sequence of `add_data` calls at most one
record per `(source, data_type)` pair is resident (supersession
invariant, as claimed), and `get_latest_data(kind)` returns a resident
record of that kind carrying the maximal `timestamp` among the resident
records of that kind — with no expiry check, so the record returned may
be expired. -/
theorem C2_amended_supersession :
    (∀ (ds : List InputData) (s t : String),
        countKey (List.foldl add_data [] ds) s t ≤ 1) ∧
    (∀ (cur : List InputData) (k : String) (r : InputData), k ≠ "" →
        get_latest_data cur k = some r →
        r ∈ cur ∧ r.data_type = k ∧
          ∀ y ∈ cur, y.data_type = k → y.timestamp ≤ r.timestamp) := by
  constructor
  · intro ds s t
    exact countKey_foldl_le_one ds [] (fun s' t' => by simp [countKey]) s t
  · intro cur k r hk h
    have hspec := pyMaxBy_spec h
    refine ⟨mem_of_mem_get_current_data hspec.mem,
            data_type_of_mem_get_current_data hk hspec.mem, ?_⟩
    intro y hy hyk
    exact hspec.le_of_mem y (mem_get_current_data_of_kind hy hyk hk)

/-- Witness for `C2_amended_supersession` at concrete inputs. -/
theorem C2_amended_witness :
    countKey (List.foldl add_data [] [rPlain, rPlain]) "a" "k" ≤ 1 ∧
    rPlain ∈ [rPlain] :=
  ⟨C2_amended_supersession.1 [rPlain, rPlain] "a" "k",
   (C2_amended_supersession.2 [rPlain] "k" rPlain (by decide) (by decide)).1⟩

/-! ### Claim C8 -/

/-- Claim C8 is false of the code: `rPlain` and `rPlain2` have the same
kind and equal timestamps and are both resident after two `add_data`
calls (`rPlain` inserted first); Python `max` returns the first maximal
element, so `get_latest_data` returns the FIRST-inserted record, while
the claim says the last-inserted record wins the tie. -/
theorem C8_counterexample :
    get_latest_data (add_data (add_data [] rPlain) rPlain2) "k" = some rPlain ∧
    rPlain.timestamp = rPlain2.timestamp ∧
    rPlain ≠ rPlain2 := by decide

/-- Claim C8 amended: `get_latest_data(kind)` selects the record with the
maximum `timestamp` among the resident records of that kind — expired or
not, since no expiry check is applied — and an equal-timestamp tie is
broken by insertion order with the first-inserted record winning: every
record of that kind positioned before the returned one has a strictly
smaller timestamp. -/
theorem C8_amended_first_max (cur : List InputData) (k : String) (r : InputData)
    (hk : k ≠ "") (h : get_latest_data cur k = some r) :
    r ∈ cur ∧ r.data_type = k ∧
    ∃ before after,
      get_current_data cur (some k) = before ++ r :: after ∧
      (∀ y ∈ before, y.timestamp < r.timestamp) ∧
      (∀ y ∈ after, y.timestamp ≤ r.timestamp) := by
  have hspec := pyMaxBy_spec h
  obtain ⟨l1, l2, hsplit, hlt, hle⟩ := pyMaxBy_spec h
  exact ⟨mem_of_mem_get_current_data hspec.mem,
         data_type_of_mem_get_current_data hk hspec.mem,
         l1, l2, hsplit, hlt, hle⟩

/-- Witness for `C8_amended_first_max` at concrete inputs. -/
theorem C8_amended_witness :
    rPlain ∈ [rPlain, rPlain2] ∧ rPlain.data_type = "k" ∧
    ∃ before after,
      get_current_data [rPlain, rPlain2] (some "k") = before ++ rPlain :: after ∧
      (∀ y ∈ before, y.timestamp < rPlain.timestamp) ∧
      (∀ y ∈ after, y.timestamp ≤ rPlain.timestamp) :=
  C8_amended_first_max [rPlain, rPlain2] "k" rPlain (by decide) (by decide)

/-! ### Claim C10 -/

/-- Claim C10: a record with `expires_at = None` is never expired at any
time, survives every pruning pass, survives every `add_data` with a
different `(source, data_type)` key, and leaves the collection only when
a different record with its key supersedes it. -/
theorem C10_no_expiry_persists (r : InputData) (h : r.expires_at = none) :
    (∀ now : Int, is_expired r now = false) ∧
    (∀ (now : Int) (cur : List InputData), r ∈ cur → r ∈ clean_expired_data now cur) ∧
    (∀ (cur : List InputData) (d : InputData), r ∈ cur →
        ¬(d.source = r.source ∧ d.data_type = r.data_type) → r ∈ add_data cur d) ∧
    (∀ (cur : List InputData) (d : InputData),
        d.source = r.source → d.data_type = r.data_type → r ≠ d →
        r ∉ add_data cur d) := by
  have hexp : ∀ now : Int, is_expired r now = false := by
    intro now; unfold is_expired; rw [h]
  refine ⟨hexp, ?_, ?_, ?_⟩
  · intro now cur hr
    exact List.mem_filter.mpr ⟨hr, by rw [hexp now]; rfl⟩
  · intro cur d hr hne
    apply List.mem_append.mpr; left
    apply List.mem_filter.mpr
    refine ⟨hr, ?_⟩
    rcases not_and_or.mp hne with hs | ht
    · have hb : (r.source == d.source) = false :=
        beq_eq_false_iff_ne.mpr (fun he => hs he.symm)
      simp [hb]
    · have hb : (r.data_type == d.data_type) = false :=
        beq_eq_false_iff_ne.mpr (fun he => ht he.symm)
      simp [hb]
  · intro cur d hs ht hne hmem
    rcases List.mem_append.mp hmem with hmem | hmem
    · have hp := (List.mem_filter.mp hmem).2
      rw [hs, ht] at hp
      simp at hp
    · rcases List.mem_cons.mp hmem with he | he
      · exact hne he
      · simp at he

/-- Witness for `C10_no_expiry_persists` at concrete inputs. -/
theorem C10_witness :
    is_expired rPlain 100 = false ∧
    rPlain ∈ clean_expired_data 100 [rPlain] :=
  ⟨(C10_no_expiry_persists rPlain rfl).1 100,
   (C10_no_expiry_persists rPlain rfl).2.1 100 [rPlain] (by decide)⟩

/-! ### Claim C3 -/

/-- Claim C3: render preemption.  From any display state, `show_text A`
with a duration arms an auto-clear task; a following `show_text B`
without a duration cancels that pending task before rendering `B`, so `B`
is displayed and the auto-clear armed for `A` — the task at index
`(cancel_current s).tasks.length` — is a no-op when its sleep elapses:
firing it returns the state unchanged, so `B` stays displayed
indefinitely. -/
theorem C3_render_preemption (s : DisplayState) (A B : String) (d : Int) :
    (show_text (show_text s A (some d)) B none).displayed = some B ∧
    fire_timer (show_text (show_text s A (some d)) B none)
        ((cancel_current s).tasks.length)
      = show_text (show_text s A (some d)) B none := by
  have h1 : show_text s A (some d) =
      { displayed := some A,
        tasks := (cancel_current s).tasks ++ [{ cancelled := false, fired := false }],
        current_task := some (cancel_current s).tasks.length } := rfl
  have hc : cancel_current (show_text s A (some d)) =
      { displayed := some A,
        tasks := (cancel_current s).tasks ++ [{ cancelled := true, fired := false }],
        current_task := some (cancel_current s).tasks.length } := by
    rw [h1]
    unfold cancel_current
    simp [get?_concat_length, set_concat_length]
  have h2 : show_text (show_text s A (some d)) B none =
      { displayed := some B,
        tasks := (cancel_current s).tasks ++ [{ cancelled := true, fired := false }],
        current_task := some (cancel_current s).tasks.length } := by
    show { cancel_current (show_text s A (some d)) with displayed := some B } = _
    rw [hc]
  refine ⟨by rw [h2], ?_⟩
  rw [h2]
  unfold fire_timer
  simp [get?_concat_length]

/-! ### Claim C4 -/

/-- Claim C4: fail-stop.  From the post-`start` loop state, exactly
`max_errors` consecutive fetch failures drive `error_count` to
`max_errors` and `running` to `false` (and a stopped loop takes no
further steps — the loop has exited); any successful fetch while running
resets the counter to 0; every failure while running increments it by
exactly one, so between successes the counter only increases. -/
theorem C4_fail_stop (max_errors : Nat) (hpos : 0 < max_errors) :
    (run_loop max_errors initial_loop_state (List.replicate max_errors .failure)
        = { running := false, error_count := max_errors }) ∧
    (∀ (s : LoopState) (o : FetchOutcome), s.running = false →
        update_step max_errors s o = s) ∧
    (∀ s : LoopState, s.running = true →
        (update_step max_errors s .success).error_count = 0) ∧
    (∀ s : LoopState, s.running = true →
        (update_step max_errors s .failure).error_count = s.error_count + 1) := by
  refine ⟨?_, ?_, ?_, ?_⟩
  · exact run_loop_failures max_errors max_errors 0 (by omega) hpos
  · intro s o hs
    simp [update_step, hs]
  · intro s hs
    simp [update_step, hs]
  · intro s hs
    simp only [update_step, hs]
    by_cases hle : max_errors ≤ s.error_count + 1 <;> simp [hle]

/-- Witness for `C4_fail_stop` at `max_errors = 5` (the source default). -/
theorem C4_fail_stop_witness :
    run_loop 5 initial_loop_state (List.replicate 5 .failure)
      = { running := false, error_count := 5 } :=
  (C4_fail_stop 5 (by decide)).1

/-! ### Claims C5 and C6 -/

/-- An enabled, not-yet-started module with zero counters. -/
def s0 : ModuleState :=
  { enabled := true, running := false, loopsLaunched := 0, cleanupRuns := 0 }

/-- Claim C5 is false in its second half: `start` has no already-running
guard, so a second call on the already-running instance is not a no-op —
it launches a second concurrent update loop (`loopsLaunched` goes from 1
to 2). -/
theorem C5_counterexample :
    (start s0).running = true ∧
    (start s0).loopsLaunched = 1 ∧
    (start (start s0)).loopsLaunched = 2 ∧
    start (start s0) ≠ start s0 := by decide

/-- Claim C5 amended: `start()` is a no-op when `enabled` is false;
otherwise every call sets `running` and launches an update loop — even on
an already-running instance, so a second call launches a second
concurrent loop. -/
theorem C5_amended_start :
    (∀ s : ModuleState, s.enabled = false → start s = s) ∧
    (∀ s : ModuleState, s.enabled = true →
        (start s).running = true ∧
        (start s).loopsLaunched = s.loopsLaunched + 1) := by
  constructor
  · intro s hs; simp [start, hs]
  · intro s hs; simp [start, hs]

/-- Witness for `C5_amended_start` at concrete inputs. -/
theorem C5_amended_witness :
    (start { enabled := false, running := false, loopsLaunched := 0,
             cleanupRuns := 0 } : ModuleState)
      = { enabled := false, running := false, loopsLaunched := 0,
          cleanupRuns := 0 } ∧
    (start s0).running = true :=
  ⟨C5_amended_start.1 _ rfl, (C5_amended_start.2 s0 rfl).1⟩

/-- Claim C6 is false in its cleanup half: the end state of a double
`stop` agrees with a single `stop` on `running`, but `stop`
unconditionally awaits `_cleanup()`, so the cleanup hook runs a second
time on the second call. -/
theorem C6_counterexample :
    (stop (stop s0)).running = (stop s0).running ∧
    (stop s0).cleanupRuns = 1 ∧
    (stop (stop s0)).cleanupRuns = 2 ∧
    stop (stop s0) ≠ stop s0 := by decide

/-- Claim C6 amended: calling `stop()` twice leaves the same `running`
state (false) as calling it once and touches no other lifecycle field,
but the capability's cleanup hook runs on every call — twice for two
calls. -/
theorem C6_amended_stop (s : ModuleState) :
    (stop s).running = false ∧
    (stop (stop s)).running = (stop s).running ∧
    (stop (stop s)).enabled = s.enabled ∧
    (stop (stop s)).loopsLaunched = s.loopsLaunched ∧
    (stop (stop s)).cleanupRuns = s.cleanupRuns + 2 :=
  ⟨rfl, rfl, rfl, rfl, rfl⟩

/-! ### Claim C7 -/

/-- Claim C7: listener fan-out failure isolation.  For every listener
list, `_notify_listeners` invokes every callback in registration order —
the invoked ids are exactly `cbs.map Listener.id`, whatever each
callback's outcome — and the log collects exactly the exceptions the
raising callbacks produced.  The function is total: a raised exception is
caught and logged, never propagated to the caller, so it cannot crash the
scheduling loop. -/
theorem C7_listener_isolation (cbs : List Listener) :
    (notify_listeners cbs).1 = cbs.map Listener.id ∧
    (notify_listeners cbs).2 = cbs.filterMap (fun cb =>
        match cb.outcome with
        | .ok => none
        | .raised e => some (cb.id, e)) := by
  induction cbs with
  | nil => exact ⟨rfl, rfl⟩
  | cons cb rest ih =>
    cases hco : cb.outcome <;>
      simp [notify_listeners, hco, ih.1, ih.2]

/-! ### Claim C9 -/

/-- Claim C9: layout law of `_draw_text`.  Centered with no position: line
`j` is drawn at x-offset `(displayWidth − its measured width) // 2` and at
`y = (displayHeight − lineCount·lineHeight) // 2 + j·lineHeight` (floor
division, matching Python `//`).  With an explicit position: line `j` is
left-anchored at the given x and stacked at `y + j·lineHeight`, with no
centering, whatever the centering flag. -/
theorem C9_layout (measure : List Char → Int) (text : List Char) :
    (∀ (j : Nat) (line : List Char),
        (split_lines text).get? j = some line →
        (draw_text measure text none true).get? j = some
          { x := Int.fdiv (display_width - measure line) 2
            y := Int.fdiv
                   (display_height - ((split_lines text).length : Int) * line_height) 2
                 + (j : Int) * line_height
            line := line }) ∧
    (∀ (pos : Int × Int) (center : Bool) (j : Nat) (line : List Char),
        (split_lines text).get? j = some line →
        (draw_text measure text (some pos) center).get? j = some
          { x := pos.1, y := pos.2 + (j : Int) * line_height, line := line }) := by
  constructor
  · intro j line hj
    unfold draw_text
    simp only [Option.isNone_none, Bool.and_true, if_true]
    rw [draw_lines_centered_get?, hj]
    simp
  · intro pos center j line hj
    unfold draw_text
    simp only [Option.isNone_some, Bool.and_false, Bool.false_eq_true, if_false,
      Option.getD_some]
    rw [draw_lines_at_get?, hj]
    simp

/-- The simulation-mode `MockFont.getbbox`: every character is 6 px wide. -/
def mock_measure (line : List Char) : Int := 6 * (line.length : Int)

/-- Witness for `C9_layout` on the two-line text `"Hi\nyo"` with the mock
font. -/
theorem C9_layout_witness :
    (draw_text mock_measure ['H', 'i', '\n', 'y', 'o'] none true).get? 1 = some
      { x := Int.fdiv (display_width - mock_measure ['y', 'o']) 2
        y := Int.fdiv (display_height -
               ((split_lines ['H', 'i', '\n', 'y', 'o']).length : Int) * line_height) 2
             + (1 : Int) * line_height
        line := ['y', 'o'] } :=
  (C9_layout mock_measure ['H', 'i', '\n', 'y', 'o']).1 1 ['y', 'o'] (by decide)

end Glasses
